/-
Verification of the DukeRoguelikeAgain core against its specification.

The Rust source is shallowly embedded in Lean 4.  Machine integers
(`isize`, `i32`, `u32`, `usize`) are modelled as `Int` / `Nat`; the game
never approaches overflow, so no wrap-around modelling is needed.  Where
the source computes with `f64` on values that are exactly representable
(integer coordinates, squared distances, view ranges), the embedding uses
exact `Int` arithmetic; `f64::sqrt` is modelled as `Real.sqrt`; the `f32`
health ratio is modelled as an exact rational.
-/
import Mathlib

namespace DukeRoguelike

/-! ## Spatial primitives (src/models/mod.rs) -/

/-- `Position { x: isize, y: isize }` — world-grid coordinate. -/
structure Position where
  x : Int
  y : Int
deriving DecidableEq, Repr

/-- `Position::new`. -/
def Position.new (x y : Int) : Position := ⟨x, y⟩

/-- `Position::new_from_dx_dy`. -/
def Position.new_from_dx_dy (p : Position) (dx dy : Int) : Position :=
  Position.new (p.x + dx) (p.y + dy)

/-- `Position::fast_distance` — Manhattan distance `(dx.abs() + dy.abs()) as f64`;
the value is a non-negative integer, exactly representable in `f64`. -/
def Position.fast_distance (p other : Position) : Int :=
  |p.x - other.x| + |p.y - other.y|

/-- `Position::distance_squared` — squared Euclidean distance
`dx.powi(2) + dy.powi(2)` computed on coordinates cast to `f64`
(exact for the in-game coordinate range). -/
def Position.distance_squared (p other : Position) : Int :=
  (p.x - other.x) ^ 2 + (p.y - other.y) ^ 2

/-- `Position::euclidean_distance` — `distance_squared(other).sqrt()`. -/
noncomputable def Position.euclidean_distance (p other : Position) : ℝ :=
  Real.sqrt ((p.distance_squared other : ℝ))

/-- `CONSOLE_WIDTH` (src/main.rs). -/
def CONSOLE_WIDTH : Nat := 80

/-- `CONSOLE_HEIGHT` (src/main.rs). -/
def CONSOLE_HEIGHT : Nat := 45

/-- `Position::is_within_bounds` — inclusive bounds check. -/
def Position.is_within_bounds (p : Position) (xb : Nat × Nat) (yb : Nat × Nat) : Bool :=
  p.x ≥ (xb.1 : Int) && p.x ≤ (xb.2 : Int) && p.y ≥ (yb.1 : Int) && p.y ≤ (yb.2 : Int)

/-- `Position::is_within_console_bounds`. -/
def Position.is_within_console_bounds (p : Position) : Bool :=
  p.is_within_bounds (1, CONSOLE_WIDTH - 2) (1, CONSOLE_HEIGHT - 2)

/-! ## Stats (src/models/stats.rs) -/

/-- `Health { total_health: u32, current_health: i32 }`. -/
structure Health where
  total_health : Nat
  current_health : Int
deriving DecidableEq, Repr

/-- `Health::new`. -/
def Health.new (h : Nat) : Health := ⟨h, (h : Int)⟩

/-- `Health::get_ratio` — `current_health as f32 / total_health as f32`,
modelled as the exact rational (within `f32` accuracy for in-game values,
and exact at every value the claims exercise). -/
def Health.get_ratio (h : Health) : ℚ :=
  (h.current_health : ℚ) / (h.total_health : ℚ)

/-- `Damage { from: Entity, to: Entity, damage: i32 }` (the queued event
payload; entities are modelled by their ids).  The Rust fields `from` and
`to` are Lean keywords and are rendered `from_` and `to_`. -/
structure Damage where
  from_ : Nat
  to_ : Nat
  damage : Int
deriving DecidableEq, Repr

/-! ## Vision and the AI state machine (src/models/ai.rs) -/

/-- `Vision { view_range: usize }`. -/
structure Vision where
  view_range : Nat
deriving DecidableEq, Repr

/-- `Vision::can_see` — squared Euclidean distance (via
`DistanceMetric::EuclideanSquared`, which dispatches to
`Position::distance_squared`) compared against `view_range.pow(2) as f64`. -/
def Vision.can_see (v : Vision) (self_pos position : Position) : Bool :=
  self_pos.distance_squared position ≤ (v.view_range ^ 2 : Int)

/-- `Action` — the move an AI entity decided on. -/
inductive Action where
  | GoTo (p : Position)
  | Wait
  | Attack (p : Position)
deriving DecidableEq, Repr

/-- `AiState`. -/
inductive AiState where
  | Idling
  | Afraid
  | Angry
deriving DecidableEq, Repr

/-- `Ai { curr_state: AiState }`. -/
structure Ai where
  curr_state : AiState
deriving DecidableEq, Repr

/-- `Ai::default()` — `AiState::Idling`. -/
def Ai.default : Ai := ⟨AiState.Idling⟩

/-- `Ai::get_next_action`, returning the chosen action together with the
updated `Ai` (the Rust method mutates `self.curr_state` in place).

`Ai::find_position_relative_to_player` — the retreat point for the Afraid
branches — computes with `f64` trigonometry (`Position::angle`,
`Position::go_distance_theta`); it is abstracted here as the parameter
`retreat`, applied exactly where the source calls
`self.find_position_relative_to_player(player_pos, my_position, true, None)`
(arguments in that order).  None of the claims settled on this definition
depend on the retreat point's value. -/
def Ai.get_next_action (retreat : Position → Position → Position) (ai : Ai)
    (player_pos my_position : Position) (my_health : Health) (my_vision : Vision) :
    Action × Ai :=
  match ai.curr_state with
  | AiState.Idling =>
      if my_vision.can_see my_position player_pos then
        (Action.GoTo player_pos, ⟨AiState.Angry⟩)
      else
        (Action.Wait, ai)
  | AiState.Afraid =>
      if !my_vision.can_see my_position player_pos then
        (Action.Wait, ⟨AiState.Idling⟩)
      else
        (Action.GoTo (retreat player_pos my_position), ai)
  | AiState.Angry =>
      if !my_vision.can_see my_position player_pos then
        (Action.Wait, ⟨AiState.Idling⟩)
      else if my_health.get_ratio < (1 : ℚ) / 4 then
        (Action.GoTo (retreat player_pos my_position), ⟨AiState.Afraid⟩)
      else if my_position.distance_squared player_pos ≤ 2 then
        (Action.Attack player_pos, ai)
      else
        (Action.GoTo player_pos, ai)

/-! ## Event bus manager (src/events/event_bus_manager.rs, src/events/event_bus.rs)

Event types are identified by their `TypeId`; the embedding tags them with
`EvType`.  `boxDyn` stands for `TypeId::of::<Box<dyn Event>>()` — the type
at which `dispatch_all`'s call `self.post(event_box, world)` monomorphizes
`post::<T>`, since `event_box : Box<dyn Event>` and the blanket
`impl<T: Any + Send + Sync> Event for T` makes `Box<dyn Event>`
itself an `Event`.  Handlers are identified by ids; a `publish` is modelled
by the list of (handler, event) invocations it performs. -/

/-- A `TypeId` tag for event types. -/
inductive EvType where
  | damage
  | deadEntity
  | boxDyn
deriving DecidableEq, Repr

/-- A queued `Box<dyn Event>`: the concrete `TypeId` reported by
`(*event_box).type_id()` together with an opaque payload id. -/
structure QueuedEvent where
  ty : EvType
  payload : Nat
deriving DecidableEq, Repr

/-- `EventBusManager { buses, queued_events }` — the mutex wrappers carry no
content in the single-threaded embedding. -/
structure EventBusManager where
  buses : List (EvType × List Nat)
  queued_events : List QueuedEvent
deriving DecidableEq, Repr

/-- `EventBusManager::new`. -/
def EventBusManager.new : EventBusManager := ⟨[], []⟩

/-- Lookup of `buses[&type_id]`. -/
def EventBusManager.findBus (m : EventBusManager) (t : EvType) : Option (List Nat) :=
  (m.buses.find? (fun b => b.1 == t)).map (fun b => b.2)

/-- `EventBusManager::get_or_create_bus::<T>` — returns the bus stored for
`T`'s `TypeId`, creating and inserting an empty one if absent. -/
def EventBusManager.get_or_create_bus (m : EventBusManager) (t : EvType) :
    EventBusManager × List Nat :=
  match m.findBus t with
  | some bus => (m, bus)
  | none => ({ m with buses := m.buses ++ [(t, [])] }, [])

/-- `EventBusManager::subscribe::<T>` — push the handler onto `T`'s bus
(`EventBus::subscribe` appends, preserving registration order). -/
def EventBusManager.subscribe (m : EventBusManager) (t : EvType) (handler : Nat) :
    EventBusManager :=
  { m with
    buses :=
      if (m.findBus t).isSome then
        m.buses.map (fun b => if b.1 == t then (b.1, b.2 ++ [handler]) else b)
      else
        m.buses ++ [(t, [handler])] }

/-- `EventBus::publish` — invoke every subscribed handler in order; the
invocations are returned as (handler, event) pairs. -/
def EventBus.publish (handlers : List Nat) (e : QueuedEvent) : List (Nat × QueuedEvent) :=
  handlers.map (fun h => (h, e))

/-- `EventBusManager::post::<T>` — `get_or_create_bus::<T>` then publish the
event on that bus.  `t` is the `TypeId` of the type parameter `T` the call
monomorphizes at. -/
def EventBusManager.post (m : EventBusManager) (t : EvType) (e : QueuedEvent) :
    EventBusManager × List (Nat × QueuedEvent) :=
  let (m1, bus) := m.get_or_create_bus t
  (m1, EventBus.publish bus e)

/-- `EventBusManager::enqueue::<T>` — box the event and push it onto
`queued_events`. -/
def EventBusManager.enqueue (m : EventBusManager) (e : QueuedEvent) : EventBusManager :=
  { m with queued_events := m.queued_events ++ [e] }

/-- One iteration of `dispatch_all`'s drain loop: look up the bus for the
event's concrete `TypeId`; if one exists, call `self.post(event_box, world)`.
That call instantiates `post::<Box<dyn Event>>` (the argument is the
`Box<dyn Event>` itself, never downcast), so the publish happens on the bus
keyed by `EvType.boxDyn`, not on the bus that was looked up. -/
def EventBusManager.dispatchStep (m : EventBusManager) (e : QueuedEvent) :
    EventBusManager × List (Nat × QueuedEvent) :=
  match m.findBus e.ty with
  | some _ => m.post EvType.boxDyn e
  | none => (m, [])

/-- `EventBusManager::dispatch_all` — drain `queued_events` and run the
loop body on each drained event in FIFO order, collecting every handler
invocation performed. -/
def EventBusManager.dispatch_all (m : EventBusManager) :
    EventBusManager × List (Nat × QueuedEvent) :=
  (m.queued_events.foldl
    (fun acc e =>
      let (m1, out) := acc.1.dispatchStep e
      (m1, acc.2 ++ out))
    ({ m with queued_events := [] }, []))

/-! ## Errors and the scheduler (src/error.rs, src/main.rs) -/

/-- `DRError`. -/
inductive DRError where
  | ComponentMissing (s : String)
  | MissingEntity (s : String)
  | GameOver
deriving DecidableEq, Repr

/-- One scheduler tick, `MyRoguelike::update`: each system's `call` mutates
the world in place and returns a `Result`; the loop body
`if let Err(e) = system.call(..) { tracing::error!(..) }` logs the error and
continues with the next system, and `update` always returns `None` (no
`UpdateEvent`, so the engine keeps ticking).  A system is modelled as a
state transformer returning the mutated world and its `Result`
(`none` = `Ok(())`, `some e` = `Err(e)`). -/
def MyRoguelike.update {W : Type} (systems : List (W → W × Option DRError)) (w : W) :
    W × Option Unit :=
  (systems.foldl (fun st sys => (sys st).1) w, none)

/-! ## World model for the systems (src/systems.rs)

`hecs::World` is modelled as a list of entity records; each record carries
the entity id and the optional components the in-scope systems touch.
Component get/set and despawn correspond to `world.get::<&T>/<&mut T>` and
`world.despawn`. -/

/-- An entity with its components.  `input_state` holds
`InputState::was_input_handled_this_frame`. -/
structure EntityRec where
  eid : Nat
  pos : Option Position := none
  health : Option Health := none
  ai : Option Ai := none
  vision : Option Vision := none
  input_state : Option Bool := none
deriving DecidableEq, Repr

/-- The entity store. -/
def World := List EntityRec
deriving DecidableEq

/-- `world.entity(id)` succeeds iff the entity exists. -/
def containsEntity (w : World) (id : Nat) : Bool :=
  w.any (fun r => r.eid == id)

/-- Find an entity's record. -/
def findEntity (w : World) (id : Nat) : Option EntityRec :=
  w.find? (fun r => r.eid == id)

/-- `world.get::<&Position>(id)`. -/
def getPos (w : World) (id : Nat) : Option Position :=
  (findEntity w id).bind (fun r => r.pos)

/-- `world.get::<&Health>(id)`. -/
def getHealth (w : World) (id : Nat) : Option Health :=
  (findEntity w id).bind (fun r => r.health)

/-- `world.get::<&Ai>(id)`. -/
def getAi (w : World) (id : Nat) : Option Ai :=
  (findEntity w id).bind (fun r => r.ai)

/-- `world.get::<&Vision>(id)`. -/
def getVision (w : World) (id : Nat) : Option Vision :=
  (findEntity w id).bind (fun r => r.vision)

/-- `world.get::<&InputState>(id)` (the flag it carries). -/
def getInputState (w : World) (id : Nat) : Option Bool :=
  (findEntity w id).bind (fun r => r.input_state)

/-- Write through a `&mut Position` borrow of entity `id`. -/
def setPos (w : World) (id : Nat) (p : Position) : World :=
  w.map (fun r => if r.eid == id then { r with pos := some p } else r)

/-- Write through a `&mut Ai` borrow of entity `id`. -/
def setAi (w : World) (id : Nat) (a : Ai) : World :=
  w.map (fun r => if r.eid == id then { r with ai := some a } else r)

/-- Write through a `&mut InputState` borrow of entity `id`. -/
def setInputState (w : World) (id : Nat) (b : Bool) : World :=
  w.map (fun r => if r.eid == id then { r with input_state := some b } else r)

/-- `world.despawn(id)` — removes the entity and all of its components;
`none` models `Err(NoSuchEntity)`. -/
def despawn (w : World) (id : Nat) : Option World :=
  if containsEntity w id then some (w.filter (fun r => !(r.eid == id))) else none

/-- `get_entity_locations` — the `HashMap<Position, Entity>` snapshot built
from `world.query::<&Position>()`, as the association list in world order
(for duplicate positions, `HashMap` insertion keeps the last insert). -/
def get_entity_locations (w : World) : List (Position × Nat) :=
  w.filterMap (fun r => r.pos.map (fun p => (p, r.eid)))

/-- `entity_locations.contains_key(&p)`. -/
def containsLoc (locs : List (Position × Nat)) (p : Position) : Bool :=
  locs.any (fun q => q.1 == p)

/-- `entity_locations.get(&p)` — the surviving (last-inserted) entity for
key `p`. -/
def lookupLoc (locs : List (Position × Nat)) (p : Position) : Option Nat :=
  (locs.reverse.find? (fun q => q.1 == p)).map (fun q => q.2)

/-! ## InputSystem (src/systems.rs) -/

/-- The four direction keys the input adapter is polled for
(`api.input().key("Arrow…")`). -/
structure InputKeys where
  left : Bool
  right : Bool
  up : Bool
  down : Bool
deriving DecidableEq, Repr

/-- The first-match-wins `if/else if` chain computing `next_position` from
the pressed arrow keys. -/
def nextPositionOf (keys : InputKeys) (player_pos : Position) : Option Position :=
  if keys.left then some (player_pos.new_from_dx_dy (-1) 0)
  else if keys.right then some (player_pos.new_from_dx_dy 1 0)
  else if keys.up then some (player_pos.new_from_dx_dy 0 (-1))
  else if keys.down then some (player_pos.new_from_dx_dy 0 1)
  else none

/-- `InputSystem::call`.  `input_state_entity_id` is the system's stored
`Option<Entity>` (set by `init` to the entity carrying `InputState`, i.e.
the player).  The event-bus side effect is modelled by threading the list
of enqueued `Damage` events.  Mirrors the source order: snapshot
`entity_locations`, resolve the stored id (`ok_or(MissingEntity)`), check
`world.entity` (`Err` → `GameOver`), borrow the player `Position`, compute
`next_position` from the keys, reset the flag to `false`, then either move
(in-bounds and unoccupied), attack (occupied: enqueue
`Damage { from: player, to: occupant, damage: 2 }`), or do nothing. -/
def InputSystem.call (keys : InputKeys) (input_state_entity_id : Option Nat)
    (w : World) (queue : List Damage) : Except DRError (World × List Damage) :=
  let entity_locations := get_entity_locations w
  match input_state_entity_id with
  | none => Except.error (DRError.MissingEntity "player")
  | some player_input_id =>
    if !containsEntity w player_input_id then
      Except.error DRError.GameOver
    else
      match getPos w player_input_id with
      | none => Except.error (DRError.ComponentMissing "Position")
      | some player_pos =>
        match getInputState w player_input_id with
        | none => Except.error (DRError.ComponentMissing "InputState")
        | some _ =>
          let w1 := setInputState w player_input_id false
          match nextPositionOf keys player_pos with
          | none => Except.ok (w1, queue)
          | some next_position =>
            if next_position.is_within_console_bounds
                && !containsLoc entity_locations next_position then
              Except.ok
                (setPos (setInputState w1 player_input_id true) player_input_id
                  next_position, queue)
            else
              match lookupLoc entity_locations next_position with
              | some entity =>
                Except.ok
                  (setInputState w1 player_input_id true,
                    queue ++ [⟨player_input_id, entity, 2⟩])
              | none => Except.ok (w1, queue)

/-! ## AiSystem (src/systems.rs) -/

/-- Outcome of a system `call`, distinguishing `Result::Err` from a Rust
panic (`unwrap` / `expect`). -/
inductive SysOutcome (α : Type) where
  | ok (a : α)
  | err (e : DRError)
  | panicked
deriving DecidableEq, Repr

/-- The body of `AiSystem::call`'s per-entity `match action`: `GoTo` steps
via `Position::go_towards` (f64 trigonometry, abstracted as `step`) and
moves only into a cell absent from the stale `has_entity` snapshot; `Wait`
does nothing; `Attack` enqueues `Damage { from: id, to: player_id,
damage: 1 }` iff the attacked cell is in the snapshot.  Returns the
position update (if any) and the enqueued events. -/
def AiSystem.resolveAction (step : Position → Position → Position)
    (has_entity : List Position) (player_id id : Nat) (ai_pos : Position)
    (action : Action) : Option Position × List Damage :=
  match action with
  | Action.GoTo new_pos =>
      let next_pos := step ai_pos new_pos
      (if has_entity.contains next_pos then none else some next_pos, [])
  | Action.Wait => (none, [])
  | Action.Attack pos_to_attack =>
      (none,
        if has_entity.contains pos_to_attack then [⟨id, player_id, 1⟩] else [])

/-- The ids `ai_query` iterates over: entities having all of
`(Ai, Position, Health, Vision)`, in store order. -/
def aiQueryIds (w : World) : List Nat :=
  (w.filter (fun r =>
    r.ai.isSome && r.pos.isSome && r.health.isSome && r.vision.isSome)).map
    (fun r => r.eid)

/-- `AiSystem::call`'s loop over `ai_query`: run the FSM (mutating the
entity's `Ai` in place), resolve the action, and thread the world and the
event queue.  The `has_entity` snapshot is fixed before the loop. -/
def AiSystem.loop (step retreat : Position → Position → Position)
    (player_id : Nat) (has_entity : List Position) (player_pos : Position) :
    List Nat → World → List Damage → World × List Damage
  | [], w, queue => (w, queue)
  | id :: rest, w, queue =>
    match getAi w id, getPos w id, getHealth w id, getVision w id with
    | some ai, some ai_pos, some ai_health, some ai_vision =>
      let (action, ai1) :=
        Ai.get_next_action retreat ai player_pos ai_pos ai_health ai_vision
      let w1 := setAi w id ai1
      let (newPos, dq) :=
        AiSystem.resolveAction step has_entity player_id id ai_pos action
      let w2 := match newPos with
        | some np => setPos w1 id np
        | none => w1
      AiSystem.loop step retreat player_id has_entity player_pos rest w2 (queue ++ dq)
    | _, _, _, _ =>
      AiSystem.loop step retreat player_id has_entity player_pos rest w queue

/-- `AiSystem::call`.  `player_entity_id` is the system's stored
`Option<Entity>` (set by `init` to the `Player`-marked entity, which also
carries `InputState`).  The flag read
(`self.player_entity_id.unwrap()` / `.expect("Could not get input state!")`)
panics rather than errors when missing.  If the flag is `false` the call
returns `Ok(())` immediately; otherwise it snapshots `has_entity`
(the position set), resolves the player (`world.entity(..)?` →
`MissingEntity`, position lookup → `ComponentMissing`), and runs the loop. -/
def AiSystem.call (step retreat : Position → Position → Position)
    (player_entity_id : Option Nat) (w : World) (queue : List Damage) :
    SysOutcome (World × List Damage) :=
  match player_entity_id with
  | none => SysOutcome.panicked
  | some player_id =>
    match getInputState w player_id with
    | none => SysOutcome.panicked
    | some false => SysOutcome.ok (w, queue)
    | some true =>
      let has_entity := (get_entity_locations w).map (fun q => q.1)
      if !containsEntity w player_id then
        SysOutcome.err (DRError.MissingEntity "NoSuchEntity")
      else
        match getPos w player_id with
        | none => SysOutcome.err (DRError.ComponentMissing "Position")
        | some player_pos =>
          SysOutcome.ok
            (AiSystem.loop step retreat player_id has_entity player_pos
              (aiQueryIds w) w queue)

/-! ## DeadCollector (src/systems.rs) -/

/-- `DeadEntity { entity: Entity }` (src/events/all_events.rs). -/
structure DeadEntity where
  entity : Nat
deriving DecidableEq, Repr

/-- `DeadCollector::handle` (the `EventHandler<DeadEntity>` impl): despawn
the event's entity; a failed despawn is logged and swallowed (the handler
returns normally either way). -/
def DeadCollector.handle (event : DeadEntity) (w : World) : World :=
  match despawn w event.entity with
  | some w1 => w1
  | none => w

/-! ## Theorems -/

/-- Squared Euclidean distance is symmetric. -/
theorem distance_squared_comm (a b : Position) :
    a.distance_squared b = b.distance_squared a := by
  unfold Position.distance_squared
  ring

/-- `euclidean_distance` is the modulus of the complex difference vector. -/
theorem euclidean_distance_eq_complex_abs (a b : Position) :
    a.euclidean_distance b =
      Complex.abs ⟨((a.x - b.x : Int) : ℝ), ((a.y - b.y : Int) : ℝ)⟩ := by
  rw [Complex.abs_apply, Complex.normSq_mk]
  unfold Position.euclidean_distance Position.distance_squared
  push_cast
  ring_nf

/-- C5, counterexample: on the collinear triple (0,0), (1,0), (2,0) the
squared Euclidean distance violates the triangle inequality
(1 + 1 < 4), so `distance_squared` is not a metric as the claim states. -/
theorem distance_squared_triangle_counterexample :
    Position.distance_squared (Position.new 0 0) (Position.new 1 0) +
        Position.distance_squared (Position.new 1 0) (Position.new 2 0) <
      Position.distance_squared (Position.new 0 0) (Position.new 2 0) := by
  decide

/-- C5 (amended): for arbitrary integer-coordinate positions, Manhattan
(`fast_distance`) and Euclidean (`euclidean_distance`) satisfy all three
metric-space axioms (zero self-distance, symmetry, triangle inequality),
while squared Euclidean (`distance_squared`) satisfies zero self-distance
and symmetry but not the triangle inequality. -/
theorem distance_metric_axioms (a b c : Position) :
    a.fast_distance a = 0 ∧
    a.fast_distance b = b.fast_distance a ∧
    a.fast_distance c ≤ a.fast_distance b + b.fast_distance c ∧
    a.euclidean_distance a = 0 ∧
    a.euclidean_distance b = b.euclidean_distance a ∧
    a.euclidean_distance c ≤ a.euclidean_distance b + b.euclidean_distance c ∧
    a.distance_squared a = 0 ∧
    a.distance_squared b = b.distance_squared a := by
  refine ⟨?_, ?_, ?_, ?_, ?_, ?_, ?_, ?_⟩
  · simp [Position.fast_distance]
  · unfold Position.fast_distance
    rw [abs_sub_comm a.x b.x, abs_sub_comm a.y b.y]
  · unfold Position.fast_distance
    have hx := abs_sub_le a.x b.x c.x
    have hy := abs_sub_le a.y b.y c.y
    linarith
  · simp [Position.euclidean_distance, Position.distance_squared]
  · unfold Position.euclidean_distance
    rw [distance_squared_comm]
  · rw [euclidean_distance_eq_complex_abs a c, euclidean_distance_eq_complex_abs a b,
      euclidean_distance_eq_complex_abs b c]
    have hsum :
        (⟨((a.x - c.x : Int) : ℝ), ((a.y - c.y : Int) : ℝ)⟩ : ℂ) =
          (⟨((a.x - b.x : Int) : ℝ), ((a.y - b.y : Int) : ℝ)⟩ : ℂ) +
            (⟨((b.x - c.x : Int) : ℝ), ((b.y - c.y : Int) : ℝ)⟩ : ℂ) := by
      apply Complex.ext <;> simp
    rw [hsum]
    exact Complex.abs.add_le _ _
  · simp [Position.distance_squared]
  · exact distance_squared_comm a b

/-- C8: `can_see` is symmetric in the two positions, and for a shared view
range `r` visibility holds exactly when the squared Euclidean distance is
at most `r²`: squared distance equal to `r²` is visible, anything strictly
larger is not. -/
theorem can_see_symm_and_boundary (v : Vision) (a b : Position) :
    v.can_see a b = v.can_see b a ∧
    (v.can_see a b = true ↔ a.distance_squared b ≤ (v.view_range ^ 2 : Int)) ∧
    (a.distance_squared b = (v.view_range ^ 2 : Int) → v.can_see a b = true) ∧
    ((v.view_range ^ 2 : Int) < a.distance_squared b → v.can_see a b = false) := by
  refine ⟨?_, ?_, ?_, ?_⟩
  · unfold Vision.can_see
    rw [distance_squared_comm]
  · unfold Vision.can_see
    exact decide_eq_true_iff
  · intro h
    unfold Vision.can_see
    rw [h]
    simp
  · intro h
    unfold Vision.can_see
    simpa using not_le.mpr h

/-- C8, witness: at view range 2, positions (10,10) and (9,9) (squared
distance 2, on the visible side) instantiate the symmetry and boundary
facts. -/
theorem can_see_symm_and_boundary_witness :
    Vision.can_see ⟨2⟩ (Position.new 10 10) (Position.new 9 9) =
        Vision.can_see ⟨2⟩ (Position.new 9 9) (Position.new 10 10) ∧
    (Vision.can_see ⟨2⟩ (Position.new 10 10) (Position.new 9 9) = true ↔
      Position.distance_squared (Position.new 10 10) (Position.new 9 9) ≤
        ((2 : Nat) ^ 2 : Int)) := by
  have h := can_see_symm_and_boundary ⟨2⟩ (Position.new 10 10) (Position.new 9 9)
  exact ⟨h.1, h.2.1⟩

/-- C6: from the default (Idling) AI with full health `Health::new(10)` and
view range 2: with the player at (10,10) and the AI at (0,0) the FSM yields
`Wait` and stays Idling; with the AI at (9,9) it yields `GoTo((10,10))` and
becomes Angry; called again at the same positions it yields
`Attack((10,10))` (squared distance 2 counts as adjacent) and stays Angry.
Holds for every retreat function, which the exercised branches never call. -/
theorem ai_fsm_literal_scenario (retreat : Position → Position → Position) :
    Ai.get_next_action retreat Ai.default (Position.new 10 10) (Position.new 0 0)
        (Health.new 10) ⟨2⟩ = (Action.Wait, ⟨AiState.Idling⟩) ∧
    Ai.get_next_action retreat
        (Ai.get_next_action retreat Ai.default (Position.new 10 10)
          (Position.new 0 0) (Health.new 10) ⟨2⟩).2
        (Position.new 10 10) (Position.new 9 9) (Health.new 10) ⟨2⟩ =
      (Action.GoTo (Position.new 10 10), ⟨AiState.Angry⟩) ∧
    Ai.get_next_action retreat
        (Ai.get_next_action retreat
          (Ai.get_next_action retreat Ai.default (Position.new 10 10)
            (Position.new 0 0) (Health.new 10) ⟨2⟩).2
          (Position.new 10 10) (Position.new 9 9) (Health.new 10) ⟨2⟩).2
        (Position.new 10 10) (Position.new 9 9) (Health.new 10) ⟨2⟩ =
      (Action.Attack (Position.new 10 10), ⟨AiState.Angry⟩) := by
  refine ⟨?_, ?_, ?_⟩ <;>
    norm_num [Ai.get_next_action, Ai.default, Vision.can_see, Position.distance_squared,
      Position.new, Health.get_ratio, Health.new]

/-- A concrete stand-in for the f64-trigonometry position functions
(`go_towards` / `find_position_relative_to_player`) in witnesses; the
theorems it instantiates hold for every such function. -/
def stayPut : Position → Position → Position := fun p _ => p

/-- C10: handling a `DeadEntity` event for an entity that does not exist
returns normally and leaves the world unchanged; for an existing entity
the handler despawns it — afterwards the entity is gone, the record with
all its components having been removed, and every other entity is kept. -/
theorem dead_collector_handle_spec (e : DeadEntity) (w : World) :
    (containsEntity w e.entity = false → DeadCollector.handle e w = w) ∧
    (containsEntity w e.entity = true →
      DeadCollector.handle e w = w.filter (fun r => !(r.eid == e.entity)) ∧
      containsEntity (DeadCollector.handle e w) e.entity = false) := by
  constructor
  · intro h
    simp [DeadCollector.handle, despawn, h]
  · intro h
    have hd : despawn w e.entity = some (w.filter (fun r => !(r.eid == e.entity))) := by
      simp [despawn, h]
    refine ⟨by simp [DeadCollector.handle, hd], ?_⟩
    simp [DeadCollector.handle, hd, containsEntity, List.any_eq_false, List.mem_filter]

/-- C10, witness: despawning the present entity 3 empties the world;
handling id 9 (absent) is a no-op. -/
theorem dead_collector_handle_witness :
    (containsEntity ([⟨3, none, none, none, none, none⟩] : World) 9 = false ∧
      DeadCollector.handle ⟨9⟩ ([⟨3, none, none, none, none, none⟩] : World) =
        ([⟨3, none, none, none, none, none⟩] : World)) ∧
    (containsEntity ([⟨3, none, none, none, none, none⟩] : World) 3 = true ∧
      DeadCollector.handle ⟨3⟩ ([⟨3, none, none, none, none, none⟩] : World) =
        ([⟨3, none, none, none, none, none⟩] : World).filter
          (fun r => !(r.eid == 3))) := by
  refine ⟨⟨rfl, ?_⟩, ⟨rfl, ?_⟩⟩
  · exact (dead_collector_handle_spec ⟨9⟩
      ([⟨3, none, none, none, none, none⟩] : World)).1 (by rfl)
  · exact ((dead_collector_handle_spec ⟨3⟩
      ([⟨3, none, none, none, none, none⟩] : World)).2 (by rfl)).1

/-- C9: when the stored `InputState`'s flag is `false`, `AiSystem::call`
returns `Ok(())` immediately — the world and the event queue are returned
exactly as given, for every step/retreat function. -/
theorem ai_system_skips_without_input (step retreat : Position → Position → Position)
    (pid : Nat) (w : World) (queue : List Damage)
    (h : getInputState w pid = some false) :
    AiSystem.call step retreat (some pid) w queue = SysOutcome.ok (w, queue) := by
  simp [AiSystem.call, h]

/-- C9, witness: a world whose player (id 0) carries a `false` flag and an
AI-complete goblin; the call leaves both the world and the queue alone. -/
theorem ai_system_skips_without_input_witness :
    getInputState
        ([⟨0, some (Position.new 5 5), none, none, none, some false⟩,
          ⟨1, some (Position.new 7 7), some (Health.new 8), some Ai.default,
            some ⟨6⟩, none⟩] : World) 0 = some false ∧
    AiSystem.call stayPut stayPut (some 0)
        ([⟨0, some (Position.new 5 5), none, none, none, some false⟩,
          ⟨1, some (Position.new 7 7), some (Health.new 8), some Ai.default,
            some ⟨6⟩, none⟩] : World) [] =
      SysOutcome.ok
        (([⟨0, some (Position.new 5 5), none, none, none, some false⟩,
           ⟨1, some (Position.new 7 7), some (Health.new 8), some Ai.default,
             some ⟨6⟩, none⟩] : World), []) :=
  ⟨rfl, ai_system_skips_without_input stayPut stayPut 0 _ [] rfl⟩

/-- The example manager for the dispatch_all evaluation: one handler
(id 1) subscribed to the `Damage` bus, one `Damage`-typed event enqueued. -/
def managerWithDamageSubscriber : EventBusManager :=
  (EventBusManager.new.subscribe EvType.damage 1).enqueue ⟨EvType.damage, 42⟩

/-- C1: with handler 1 subscribed to `Damage` (so a bus for the concrete
type exists and the drain loop's `if let` succeeds) and one `Damage` event
enqueued, `dispatch_all` drains the queue but performs zero handler
invocations: the inner `self.post(event_box, world)` instantiates
`post::<Box<dyn Event>>`, publishing on a freshly created bus keyed by the
box type, which has no subscribers — the subscribed handler never runs,
contradicting exactly-once delivery. -/
theorem dispatch_all_drops_subscribed_event :
    managerWithDamageSubscriber.findBus EvType.damage = some [1] ∧
    managerWithDamageSubscriber.queued_events = [⟨EvType.damage, 42⟩] ∧
    (managerWithDamageSubscriber.dispatch_all).2 = [] ∧
    (managerWithDamageSubscriber.dispatch_all).1.queued_events = [] := by
  refine ⟨rfl, rfl, rfl, rfl⟩

/-- The systems of the scheduler evaluation: over a `Nat` world, one system
failing with `GameOver` (resp. `ComponentMissing`) without touching the
world, and one incrementing the world and succeeding. -/
def failingSystem (e : DRError) : Nat → Nat × Option DRError := fun n => (n, some e)

/-- The succeeding, incrementing system for the scheduler evaluation. -/
def countingSystem : Nat → Nat × Option DRError := fun n => (n + 1, none)

/-- C2: `MyRoguelike::update` does not treat `GameOver` as fatal — after a
system fails with `GameOver` the next system in the pipeline still runs
(the count reaches 1) and the tick returns `None`, so the engine keeps
ticking.  A non-fatal error behaves identically (the claim's second half). -/
theorem update_ignores_game_over :
    MyRoguelike.update [failingSystem DRError.GameOver, countingSystem] 0 = (1, none) ∧
    MyRoguelike.update [failingSystem (DRError.ComponentMissing "Position"),
      countingSystem] 0 = (1, none) :=
  ⟨rfl, rfl⟩

/-- A world in which the player (id 0, flag set) shares cell (10,10) with
a second, AI-less entity (id 7) — reachable, since goblins spawn at random
positions — while an Angry goblin (id 5) stands diagonally adjacent at
(9,9). -/
def attackWorld : World :=
  [⟨0, some (Position.new 10 10), none, none, none, some true⟩,
   ⟨7, some (Position.new 10 10), none, none, none, none⟩,
   ⟨5, some (Position.new 9 9), some (Health.new 10), some ⟨AiState.Angry⟩,
     some ⟨2⟩, none⟩]

/-- C3, counterexample: in `attackWorld` the goblin's `Attack((10,10))`
resolves against an occupied cell, and the scheduler enqueues
`Damage { from: 5, to: 0, damage: 1 }` — `to` is the hard-coded
`player_id` 0, while the entity the location map holds for the attacked
cell is 7. -/
theorem ai_attack_targets_player_not_occupant :
    AiSystem.call stayPut stayPut (some 0) attackWorld [] =
      SysOutcome.ok (attackWorld, [⟨5, 0, 1⟩]) ∧
    lookupLoc (get_entity_locations attackWorld) (Position.new 10 10) = some 7 ∧
    (0 : Nat) ≠ 7 := by
  have hstep : Ai.get_next_action stayPut ⟨AiState.Angry⟩ (Position.new 10 10)
      (Position.new 9 9) (Health.new 10) ⟨2⟩ =
      (Action.Attack (Position.new 10 10), ⟨AiState.Angry⟩) := by
    norm_num [Ai.get_next_action, Vision.can_see, Position.distance_squared,
      Position.new, Health.get_ratio, Health.new]
  refine ⟨?_, by rfl, by decide⟩
  calc AiSystem.call stayPut stayPut (some 0) attackWorld []
      = SysOutcome.ok
          (AiSystem.loop stayPut stayPut 0
            ((get_entity_locations attackWorld).map (fun q => q.1))
            (Position.new 10 10) [5] attackWorld []) := rfl
    _ = SysOutcome.ok (attackWorld, [⟨5, 0, 1⟩]) := by
        simp only [AiSystem.loop]
        rw [show getAi attackWorld 5 = some ⟨AiState.Angry⟩ from rfl,
          show getPos attackWorld 5 = some (Position.new 9 9) from rfl,
          show getHealth attackWorld 5 = some (Health.new 10) from rfl,
          show getVision attackWorld 5 = some ⟨2⟩ from rfl]
        simp only [hstep]
        rfl

/-- C3 (amended): when the scheduler resolves an `Attack(pos)` action and
`pos` is in the occupied-cell snapshot, it enqueues exactly one
`Damage` event, with `from` the attacking entity, `to` the *player*
entity (hard-coded, regardless of which entity occupies the cell), and
amount 1; when `pos` is unoccupied nothing is enqueued and no error is
raised. -/
theorem ai_attack_resolution (step : Position → Position → Position)
    (has_entity : List Position) (player_id id : Nat) (ai_pos pos : Position) :
    (has_entity.contains pos = true →
      AiSystem.resolveAction step has_entity player_id id ai_pos (Action.Attack pos) =
        (none, [⟨id, player_id, 1⟩])) ∧
    (has_entity.contains pos = false →
      AiSystem.resolveAction step has_entity player_id id ai_pos (Action.Attack pos) =
        (none, [])) := by
  constructor
  · intro h
    simp only [AiSystem.resolveAction]
    rw [h]
    simp
  · intro h
    simp only [AiSystem.resolveAction]
    rw [h]
    simp

/-- C3, witness: attacking the occupied cell (3,3) enqueues one event to
the player (id 0) with amount 1; attacking the empty cell (4,4) enqueues
nothing. -/
theorem ai_attack_resolution_witness :
    ([Position.new 3 3].contains (Position.new 3 3) = true ∧
      AiSystem.resolveAction stayPut [Position.new 3 3] 0 5 (Position.new 9 9)
        (Action.Attack (Position.new 3 3)) = (none, [⟨5, 0, 1⟩])) ∧
    ([Position.new 3 3].contains (Position.new 4 4) = false ∧
      AiSystem.resolveAction stayPut [Position.new 3 3] 0 5 (Position.new 9 9)
        (Action.Attack (Position.new 4 4)) = (none, [])) :=
  ⟨⟨by decide,
      (ai_attack_resolution stayPut [Position.new 3 3] 0 5 (Position.new 9 9)
        (Position.new 3 3)).1 (by decide)⟩,
    ⟨by decide,
      (ai_attack_resolution stayPut [Position.new 3 3] 0 5 (Position.new 9 9)
        (Position.new 4 4)).2 (by decide)⟩⟩

/-! ### Store lemmas for the InputSystem proof -/

/-- `find?` by id commutes with an id-preserving per-record update. -/
theorem findEntity_map_eid (w : World) (id : Nat) (f : EntityRec → EntityRec)
    (hf : ∀ r, (f r).eid = r.eid) :
    findEntity (w.map f) id = (findEntity w id).map f := by
  unfold findEntity
  rw [List.find?_map]
  have hpred : ((fun r => r.eid == id) ∘ f) = (fun r : EntityRec => r.eid == id) := by
    funext r
    simp [Function.comp, hf]
  rw [hpred]

/-- Reading a component that an id-preserving update does not touch is
unchanged. -/
theorem getField_map_preserve {α : Type} (proj : EntityRec → Option α)
    (f : EntityRec → EntityRec) (hf : ∀ r, (f r).eid = r.eid)
    (hp : ∀ r, proj (f r) = proj r) (w : World) (id : Nat) :
    (findEntity (w.map f) id).bind proj = (findEntity w id).bind proj := by
  rw [findEntity_map_eid _ _ _ hf]
  cases findEntity w id with
  | none => rfl
  | some r => exact hp r

/-- `setInputState` does not change positions. -/
theorem getPos_setInputState (w : World) (id : Nat) (b : Bool) (id' : Nat) :
    getPos (setInputState w id b) id' = getPos w id' := by
  unfold getPos setInputState
  exact getField_map_preserve (fun r => r.pos) _
    (fun r => by by_cases h : (r.eid == id) = true <;> simp [h])
    (fun r => by by_cases h : (r.eid == id) = true <;> simp [h]) w id'

/-- `setPos` does not change input states. -/
theorem getInputState_setPos (w : World) (id : Nat) (p : Position) (id' : Nat) :
    getInputState (setPos w id p) id' = getInputState w id' := by
  unfold getInputState setPos
  exact getField_map_preserve (fun r => r.input_state) _
    (fun r => by by_cases h : (r.eid == id) = true <;> simp [h])
    (fun r => by by_cases h : (r.eid == id) = true <;> simp [h]) w id'

/-- `setInputState` writes the flag of a present entity. -/
theorem getInputState_setInputState (w : World) (id : Nat) (b : Bool)
    (r : EntityRec) (hr : findEntity w id = some r) :
    getInputState (setInputState w id b) id = some b := by
  unfold getInputState setInputState
  rw [findEntity_map_eid _ _ _
    (fun r => by by_cases h : (r.eid == id) = true <;> simp [h]), hr]
  have hid : r.eid = id := by
    unfold findEntity at hr
    simpa using List.find?_some hr
  simp [hid]

/-- `setPos` writes the position of a present entity. -/
theorem getPos_setPos (w : World) (id : Nat) (p : Position)
    (r : EntityRec) (hr : findEntity w id = some r) :
    getPos (setPos w id p) id = some p := by
  unfold getPos setPos
  rw [findEntity_map_eid _ _ _
    (fun r => by by_cases h : (r.eid == id) = true <;> simp [h]), hr]
  have hid : r.eid = id := by
    unfold findEntity at hr
    simpa using List.find?_some hr
  simp [hid]

/-- An id-preserving update keeps the entity findable. -/
theorem findEntity_setInputState (w : World) (id : Nat) (b : Bool)
    (r : EntityRec) (hr : findEntity w id = some r) :
    ∃ r1, findEntity (setInputState w id b) id = some r1 := by
  unfold setInputState
  rw [findEntity_map_eid _ _ _
    (fun r => by by_cases h : (r.eid == id) = true <;> simp [h]), hr]
  exact ⟨_, rfl⟩

/-- A found entity makes `containsEntity` true. -/
theorem containsEntity_of_findEntity (w : World) (id : Nat) (r : EntityRec)
    (hr : findEntity w id = some r) : containsEntity w id = true := by
  unfold containsEntity
  unfold findEntity at hr
  have hps := List.find?_some hr
  exact List.any_eq_true.mpr ⟨r, List.mem_of_find?_eq_some hr, hps⟩

/-- `contains_key` agrees with `get.is_some` on the location map. -/
theorem containsLoc_eq_isSome_lookupLoc (locs : List (Position × Nat)) (p : Position) :
    containsLoc locs p = (lookupLoc locs p).isSome := by
  unfold containsLoc lookupLoc
  rw [Bool.eq_iff_iff]
  simp only [List.any_eq_true]
  constructor
  · intro ⟨q, hq, he⟩
    have hs : (locs.reverse.find? (fun q => q.1 == p)).isSome :=
      List.find?_isSome.mpr ⟨q, List.mem_reverse.mpr hq, he⟩
    simpa using hs
  · intro h
    have hs : (locs.reverse.find? (fun q => q.1 == p)).isSome := by
      simpa using h
    rcases List.find?_isSome.mp hs with ⟨q, hq, he⟩
    exact ⟨q, List.mem_reverse.mp hq, he⟩

/-- C7: given the stored `InputState` entity id (the player, holding a
position and the flag), `InputSystem::call` returns `Ok` and afterwards the
flag is `true` exactly when a move or attack input was consumed: it is
reset to `false` and becomes `true` iff an arrow key was pressed and the
target cell is either in-bounds-and-unoccupied (move) or occupied
(attack).  In the move case the player's position becomes exactly the one
cell in the pressed direction, with nothing enqueued; in the attack case
one `Damage { from: player, to: occupant, damage: 2 }` is enqueued and the
world change is the flag write alone. -/
theorem input_system_flag_iff (keys : InputKeys) (pid : Nat) (w : World)
    (queue : List Damage) (p : Position) (b : Bool)
    (hp : getPos w pid = some p) (hi : getInputState w pid = some b) :
    ∃ w1 q1,
      InputSystem.call keys (some pid) w queue = Except.ok (w1, q1) ∧
      getInputState w1 pid =
        some (match nextPositionOf keys p with
          | some np =>
              (np.is_within_console_bounds &&
                  !containsLoc (get_entity_locations w) np ||
                containsLoc (get_entity_locations w) np)
          | none => false) ∧
      (∀ np, nextPositionOf keys p = some np →
        (np.is_within_console_bounds &&
          !containsLoc (get_entity_locations w) np) = true →
        getPos w1 pid = some np ∧ q1 = queue) ∧
      (∀ np ent, nextPositionOf keys p = some np →
        (np.is_within_console_bounds &&
          !containsLoc (get_entity_locations w) np) = false →
        lookupLoc (get_entity_locations w) np = some ent →
        w1 = setInputState (setInputState w pid false) pid true ∧
        q1 = queue ++ [⟨pid, ent, 2⟩]) := by
  obtain ⟨r, hr⟩ : ∃ r, findEntity w pid = some r := by
    unfold getInputState at hi
    cases hfe : findEntity w pid with
    | none => rw [hfe] at hi; simp at hi
    | some r => exact ⟨r, rfl⟩
  have hc : containsEntity w pid = true := containsEntity_of_findEntity w pid r hr
  obtain ⟨r1, hr1⟩ := findEntity_setInputState w pid false r hr
  cases hnp : nextPositionOf keys p with
  | none =>
      refine ⟨setInputState w pid false, queue, ?_, ?_, ?_, ?_⟩
      · simp [InputSystem.call, hc, hp, hi, hnp]
      · exact getInputState_setInputState w pid false r hr
      · intro np h1 _
        cases h1
      · intro np ent h1 _ _
        cases h1
  | some np =>
      cases hb : (np.is_within_console_bounds &&
          !containsLoc (get_entity_locations w) np) with
      | true =>
          refine ⟨setPos (setInputState (setInputState w pid false) pid true) pid np,
            queue, ?_, ?_, ?_, ?_⟩
          · simp [InputSystem.call, hc, hp, hi, hnp, hb]
          · rw [getInputState_setPos]
            have hl := getInputState_setInputState (setInputState w pid false) pid
              true r1 hr1
            rw [hl]
            simp [hb]
          · intro np' h1 _
            injection h1 with h1e
            subst h1e
            obtain ⟨r2, hr2⟩ := findEntity_setInputState _ pid true r1 hr1
            exact ⟨getPos_setPos _ _ _ r2 hr2, rfl⟩
          · intro np' ent h1 h2 _
            injection h1 with h1e
            subst h1e
            rw [hb] at h2
            cases h2
      | false =>
          have hocc :
              containsLoc (get_entity_locations w) np =
                (lookupLoc (get_entity_locations w) np).isSome :=
            containsLoc_eq_isSome_lookupLoc _ _
          cases hlk : lookupLoc (get_entity_locations w) np with
          | some ent =>
              refine ⟨setInputState (setInputState w pid false) pid true,
                queue ++ [⟨pid, ent, 2⟩], ?_, ?_, ?_, ?_⟩
              · simp [InputSystem.call, hc, hp, hi, hnp, hb, hlk]
              · have hl := getInputState_setInputState (setInputState w pid false)
                  pid true r1 hr1
                rw [hl]
                simp [hb, hocc, hlk]
              · intro np' h1 h2
                injection h1 with h1e
                subst h1e
                rw [hb] at h2
                cases h2
              · intro np' ent' h1 _ h3
                injection h1 with h1e
                subst h1e
                rw [hlk] at h3
                injection h3 with h3e
                subst h3e
                exact ⟨rfl, rfl⟩
          | none =>
              refine ⟨setInputState w pid false, queue, ?_, ?_, ?_, ?_⟩
              · simp [InputSystem.call, hc, hp, hi, hnp, hb, hlk]
              · have hl := getInputState_setInputState w pid false r hr
                have hbounds : np.is_within_console_bounds = false := by
                  rw [hocc, hlk] at hb
                  simpa using hb
                rw [hl]
                simp [hocc, hlk, hbounds]
              · intro np' h1 h2
                injection h1 with h1e
                subst h1e
                rw [hb] at h2
                cases h2
              · intro np' ent h1 _ h3
                injection h1 with h1e
                subst h1e
                rw [hlk] at h3
                cases h3

/-- C7, witness: with only the player at (5,5), flag `false`, and
ArrowRight pressed, the call succeeds and the conclusion holds (the move
to the empty in-bounds cell (6,5) applies and sets the flag). -/
theorem input_system_flag_iff_witness :
    ∃ w1 q1,
      InputSystem.call ⟨false, true, false, false⟩ (some 0)
          ([⟨0, some (Position.new 5 5), none, none, none, some false⟩] : World) [] =
        Except.ok (w1, q1) ∧
      getInputState w1 0 =
        some (match nextPositionOf ⟨false, true, false, false⟩ (Position.new 5 5) with
          | some np =>
              (np.is_within_console_bounds &&
                  !containsLoc (get_entity_locations
                    ([⟨0, some (Position.new 5 5), none, none, none, some false⟩] :
                      World)) np ||
                containsLoc (get_entity_locations
                  ([⟨0, some (Position.new 5 5), none, none, none, some false⟩] :
                    World)) np)
          | none => false) ∧
      (∀ np, nextPositionOf ⟨false, true, false, false⟩ (Position.new 5 5) = some np →
        (np.is_within_console_bounds &&
          !containsLoc (get_entity_locations
            ([⟨0, some (Position.new 5 5), none, none, none, some false⟩] :
              World)) np) = true →
        getPos w1 0 = some np ∧ q1 = []) ∧
      (∀ np ent,
        nextPositionOf ⟨false, true, false, false⟩ (Position.new 5 5) = some np →
        (np.is_within_console_bounds &&
          !containsLoc (get_entity_locations
            ([⟨0, some (Position.new 5 5), none, none, none, some false⟩] :
              World)) np) = false →
        lookupLoc (get_entity_locations
          ([⟨0, some (Position.new 5 5), none, none, none, some false⟩] :
            World)) np = some ent →
        w1 = setInputState (setInputState
          ([⟨0, some (Position.new 5 5), none, none, none, some false⟩] : World)
          0 false) 0 true ∧
        q1 = [] ++ [⟨0, ent, 2⟩]) :=
  input_system_flag_iff ⟨false, true, false, false⟩ 0
    ([⟨0, some (Position.new 5 5), none, none, none, some false⟩] : World) []
    (Position.new 5 5) false rfl rfl

end DukeRoguelike
